import Mathlib

/-!
Shallow embedding of the NomadAI backend itinerary pipeline
(`llm_service.py`, `models/travel.py`) and verification of the frozen
claims about it.

Text is modelled as `List Char` (the Python `str` operations used by the
code — `in`, `find`, `split(sep, 1)`, `strip`, slicing — are transcribed
below).  Python floats are modelled as exact rationals `ℚ`, and calendar
dates as integer day numbers (adding one day is `+ 1`).
-/

set_option maxRecDepth 4000

namespace Nomad

/-- Text, modelled as a list of characters. -/
abbrev Str := List Char

/-- Coerce a Lean string literal into the text model. -/
def lit (s : String) : Str := s.data

/-- `startsWith hay needle`: `needle` is an initial run of `hay`
(models Python `str.startswith`, used to build `find`). -/
def startsWith : Str → Str → Bool
  | _, [] => true
  | [], _ :: _ => false
  | c :: cs, d :: ds => c = d && startsWith cs ds

/-- `findIdxFrom needle hay i`: index (counting from `i`) of the first
occurrence of `needle` in `hay`, scanning left to right — the semantics of
Python `str.find` (which returns the leftmost match, or -1, modelled by
`none`). -/
def findIdxFrom (needle : Str) : Str → ℕ → Option ℕ
  | [], i => if startsWith [] needle then some i else none
  | c :: rest, i =>
    if startsWith (c :: rest) needle then some i else findIdxFrom needle rest (i + 1)

/-- Python `hay.find(needle)` (with `none` for -1). -/
def findIdx (hay needle : Str) : Option ℕ := findIdxFrom needle hay 0

/-- Python `needle in hay`. -/
def containsStr (hay needle : Str) : Bool := (findIdx hay needle).isSome

/-- Python `hay.split(needle, 1)[1]` (everything after the first occurrence);
only used where the code has already checked `needle in hay`. -/
def afterFirst (hay needle : Str) : Str :=
  match findIdx hay needle with
  | some i => hay.drop (i + needle.length)
  | none => hay

/-- Python `hay.split(needle, 1)[0]`: everything before the first occurrence,
or the whole string when the separator is absent. -/
def beforeFirst (hay needle : Str) : Str :=
  match findIdx hay needle with
  | some i => hay.take i
  | none => hay

/-- The whitespace characters recognised by Python `str.strip` / `\s`
(restricted to the ASCII range; the itinerary texts are ASCII). -/
def pyIsSpace (c : Char) : Bool :=
  c = ' ' || c = '\t' || c = '\n' || c = '\r' || c = '\x0b' || c = '\x0c'

/-- Python `str.strip()`. -/
def pyStrip (s : Str) : Str :=
  ((s.dropWhile pyIsSpace).reverse.dropWhile pyIsSpace).reverse

/-- One update step of the running-minimum variable the code keeps while
scanning marker positions (`if idx < best: best = idx`, starting from
`float('inf')` modelled by `none`). -/
def minStep (acc : Option ℕ) (i : ℕ) : Option ℕ :=
  match acc with
  | none => some i
  | some j => if i < j then some i else some j

/-- Running minimum of a list of candidate indices, exactly as the code
accumulates `next_day_idx` / `afternoon_marker_idx` / `evening_marker_idx`. -/
def minIdx (l : List ℕ) : Option ℕ := l.foldl minStep none

/-- Python `str(n)` for a natural number. -/
def natDigits (n : ℕ) : Str := Nat.toDigits 10 n

theorem startsWith_nil_right (hay : Str) : startsWith hay [] = true := by
  cases hay <;> rfl

theorem foldl_minStep_some (l : List ℕ) (a : ℕ) :
    ∃ i, l.foldl minStep (some a) = some i ∧ (i = a ∨ i ∈ l) ∧ i ≤ a ∧
      ∀ j ∈ l, i ≤ j := by
  induction l generalizing a with
  | nil => exact ⟨a, rfl, Or.inl rfl, le_refl _, by simp⟩
  | cons x xs ih =>
    by_cases hxa : x < a
    · obtain ⟨i, hfold, hmem, hle, hall⟩ := ih x
      refine ⟨i, ?_, ?_, by omega, ?_⟩
      · simpa [minStep, hxa] using hfold
      · rcases hmem with h | h
        · exact Or.inr (List.mem_cons.2 (Or.inl h))
        · exact Or.inr (List.mem_cons_of_mem _ h)
      · intro j hj
        rcases List.mem_cons.1 hj with rfl | hj
        · exact hle
        · exact hall j hj
    · obtain ⟨i, hfold, hmem, hle, hall⟩ := ih a
      refine ⟨i, ?_, ?_, hle, ?_⟩
      · simpa [minStep, hxa] using hfold
      · rcases hmem with h | h
        · exact Or.inl h
        · exact Or.inr (List.mem_cons_of_mem _ h)
      · intro j hj
        rcases List.mem_cons.1 hj with rfl | hj
        · omega
        · exact hall j hj

theorem minIdx_spec (l : List ℕ) :
    (l = [] ∧ minIdx l = none) ∨
    ∃ i, minIdx l = some i ∧ i ∈ l ∧ ∀ j ∈ l, i ≤ j := by
  cases l with
  | nil => exact Or.inl ⟨rfl, rfl⟩
  | cons x xs =>
    obtain ⟨i, hfold, hmem, hle, hall⟩ := foldl_minStep_some xs x
    refine Or.inr ⟨i, ?_, ?_, ?_⟩
    · simpa [minIdx, List.foldl_cons, minStep] using hfold
    · rcases hmem with h | h
      · exact h ▸ List.mem_cons_self x xs
      · exact List.mem_cons_of_mem _ h
    · intro j hj
      rcases List.mem_cons.1 hj with rfl | hj
      · exact hle
      · exact hall j hj

theorem minIdx_mem {l : List ℕ} {i : ℕ} (h : minIdx l = some i) : i ∈ l := by
  rcases minIdx_spec l with ⟨_, hn⟩ | ⟨v, hv, hmem, _⟩
  · rw [h] at hn; cases hn
  · rw [h] at hv; injection hv with hv; exact hv ▸ hmem

theorem minIdx_le {l : List ℕ} {i : ℕ} (h : minIdx l = some i) :
    ∀ j ∈ l, i ≤ j := by
  rcases minIdx_spec l with ⟨_, hn⟩ | ⟨v, hv, _, hall⟩
  · rw [h] at hn; cases hn
  · rw [h] at hv; injection hv with hv; exact hv ▸ hall

theorem minIdx_eq_none {l : List ℕ} (h : minIdx l = none) : l = [] := by
  rcases minIdx_spec l with ⟨hnil, _⟩ | ⟨v, hv, _, _⟩
  · exact hnil
  · rw [h] at hv; cases hv

theorem minIdx_eq_some_of {l : List ℕ} {i : ℕ} (hmem : i ∈ l)
    (hle : ∀ j ∈ l, i ≤ j) : minIdx l = some i := by
  cases hm : minIdx l with
  | none => simp [minIdx_eq_none hm] at hmem
  | some v =>
    have h1 : v ≤ i := minIdx_le hm i hmem
    have h2 : i ≤ v := hle v (minIdx_mem hm)
    rw [← Nat.le_antisymm h1 h2]

/-! ## Data model (`models/travel.py`) -/

/-- `TravelRequest` (pydantic model).  Dates are integer day numbers;
`budget : float` is modelled as `ℚ`. -/
structure TravelRequest where
  origin : Str
  destination : Str
  depart_date : ℤ
  return_date : ℤ
  duration : ℕ
  budget : ℚ
  preferences : List Str
  adults : ℕ
deriving DecidableEq

/-- `FlightOption`: the fields read by `_parse_itinerary` and the fallback
generator (airline, price, optional flight number). -/
structure FlightOption where
  airline : Str
  price : ℚ
  flight_number : Option Str
deriving DecidableEq

/-- `HotelOption`: the fields read by `_parse_itinerary`. -/
structure HotelOption where
  name : Str
  price_per_night : ℚ
deriving DecidableEq

/-- `ItineraryDayActivity` (day index, date = depart_date + day − 1,
whole-day description, optional segment texts, echoed accommodation). -/
structure ItineraryDayActivity where
  day : ℕ
  date : ℤ
  description : Str
  morning : Option Str
  afternoon : Option Str
  evening : Option Str
  accommodation : Option Str
deriving DecidableEq

/-- `Itinerary`: the structured fields produced by `_parse_itinerary` that
the claims are about. -/
structure Itinerary where
  selected_flight : Option FlightOption
  selected_hotel : Option HotelOption
  daily_plan : List ItineraryDayActivity
  summary : Str
  total_cost : ℚ
deriving DecidableEq

/-! ## Option selector (`_parse_itinerary`, lines 365–392) -/

/-- `f"{flight.airline} {flight.flight_number}"`.  The code guards this
with `hasattr(flight, 'flight_number')`, but `flight_number` is a declared
pydantic field (default `None`), so `hasattr` is always true and the
`else flight.airline` branch is dead; a missing flight number is rendered
by the f-string as the literal `None`. -/
def flightIdentifier (f : FlightOption) : Str :=
  f.airline ++ [' '] ++ (match f.flight_number with
    | some n => n
    | none => lit "None")

/-- `sorted(flights, key=lambda x: x.price)[0]`: Python sort is stable, so
the head of the sorted list is the first element attaining the minimal
price. -/
def cheapestFlight : List FlightOption → Option FlightOption
  | [] => none
  | f :: fs => some (fs.foldl (fun best x => if x.price < best.price then x else best) f)

/-- Corresponding default for hotels (`sorted(hotels, key=price_per_night)[0]`). -/
def cheapestHotel : List HotelOption → Option HotelOption
  | [] => none
  | h :: hs => some (hs.foldl (fun best x => if x.price_per_night < best.price_per_night then x else best) h)

/-- Flight selection: default cheapest, overridden by the first flight of
the original list whose identifier occurs in the text and whose price is at
most 0.6 × budget (the loop `break`s only when both conditions hold). -/
def selectFlight (budget : ℚ) (flights : List FlightOption) (text : Str) :
    Option FlightOption :=
  match flights.find? (fun f =>
      containsStr text (flightIdentifier f) && decide (f.price ≤ budget * (6/10))) with
  | some f => some f
  | none => cheapestFlight flights

/-- Price of the selected flight, `0` when there is none
(`selected_flight.price if selected_flight else 0`). -/
def flightPrice : Option FlightOption → ℚ
  | some f => f.price
  | none => 0

/-- `nights = max(1, travel_request.duration - 1)`. -/
def nightsOf (duration : ℕ) : ℕ := max 1 (duration - 1)

/-- `max_hotel_per_night = (budget - flight price) / nights * 0.7`. -/
def maxHotelPerNight (budget : ℚ) (duration : ℕ) (sf : Option FlightOption) : ℚ :=
  (budget - flightPrice sf) / (nightsOf duration : ℚ) * (7/10)

/-- Hotel selection: default cheapest, overridden by the first hotel of the
original list whose name occurs in the text and whose per-night price is at
most `maxHotelPerNight`. -/
def selectHotel (budget : ℚ) (duration : ℕ) (sf : Option FlightOption)
    (hotels : List HotelOption) (text : Str) : Option HotelOption :=
  match hotels.find? (fun h =>
      containsStr text h.name && decide (h.price_per_night ≤ maxHotelPerNight budget duration sf)) with
  | some h => some h
  | none => cheapestHotel hotels

theorem cheapestFlight_mem {flights : List FlightOption} {f : FlightOption}
    (h : cheapestFlight flights = some f) : f ∈ flights := by
  cases flights with
  | nil => cases h
  | cons x xs =>
    simp only [cheapestFlight, Option.some.injEq] at h
    subst h
    suffices hgen : ∀ (l : List FlightOption) (a : FlightOption),
        l.foldl (fun best x => if x.price < best.price then x else best) a = a ∨
        l.foldl (fun best x => if x.price < best.price then x else best) a ∈ l by
      rcases hgen xs x with h | h
      · rw [h]; exact List.mem_cons_self _ _
      · exact List.mem_cons_of_mem _ h
    intro l
    induction l with
    | nil => intro a; exact Or.inl rfl
    | cons y ys ih =>
      intro a
      simp only [List.foldl_cons]
      by_cases hy : y.price < a.price
      · simp only [if_pos hy]
        rcases ih y with h | h
        · exact Or.inr (by rw [h]; exact List.mem_cons_self _ _)
        · exact Or.inr (List.mem_cons_of_mem _ h)
      · simp only [if_neg hy]
        rcases ih a with h | h
        · exact Or.inl h
        · exact Or.inr (List.mem_cons_of_mem _ h)

theorem cheapestHotel_mem {hotels : List HotelOption} {h : HotelOption}
    (hh : cheapestHotel hotels = some h) : h ∈ hotels := by
  cases hotels with
  | nil => cases hh
  | cons x xs =>
    simp only [cheapestHotel, Option.some.injEq] at hh
    subst hh
    suffices hgen : ∀ (l : List HotelOption) (a : HotelOption),
        l.foldl (fun best x => if x.price_per_night < best.price_per_night then x else best) a = a ∨
        l.foldl (fun best x => if x.price_per_night < best.price_per_night then x else best) a ∈ l by
      rcases hgen xs x with h | h
      · rw [h]; exact List.mem_cons_self _ _
      · exact List.mem_cons_of_mem _ h
    intro l
    induction l with
    | nil => intro a; exact Or.inl rfl
    | cons y ys ih =>
      intro a
      simp only [List.foldl_cons]
      by_cases hy : y.price_per_night < a.price_per_night
      · simp only [if_pos hy]
        rcases ih y with h | h
        · exact Or.inr (by rw [h]; exact List.mem_cons_self _ _)
        · exact Or.inr (List.mem_cons_of_mem _ h)
      · simp only [if_neg hy]
        rcases ih a with h | h
        · exact Or.inl h
        · exact Or.inr (List.mem_cons_of_mem _ h)

theorem selectFlight_mem {budget : ℚ} {flights : List FlightOption} {text : Str}
    {f : FlightOption} (h : selectFlight budget flights text = some f) : f ∈ flights := by
  unfold selectFlight at h
  cases hf : flights.find? (fun f =>
      containsStr text (flightIdentifier f) && decide (f.price ≤ budget * (6/10))) with
  | some g =>
    rw [hf] at h
    injection h with h
    exact h ▸ List.mem_of_find?_eq_some hf
  | none =>
    rw [hf] at h
    exact cheapestFlight_mem h

theorem selectHotel_mem {budget : ℚ} {duration : ℕ} {sf : Option FlightOption}
    {hotels : List HotelOption} {text : Str} {h : HotelOption}
    (hsel : selectHotel budget duration sf hotels text = some h) : h ∈ hotels := by
  unfold selectHotel at hsel
  cases hf : hotels.find? (fun h =>
      containsStr text h.name && decide (h.price_per_night ≤ maxHotelPerNight budget duration sf)) with
  | some g =>
    rw [hf] at hsel
    injection hsel with hsel
    exact hsel ▸ List.mem_of_find?_eq_some hf
  | none =>
    rw [hf] at hsel
    exact cheapestHotel_mem hsel

/-! ## Day-segment parser (`_parse_itinerary`, lines 394–520) -/

/-- The four day-marker variants tried in priority order.
(The code derives the markers for a later day `nd` by
`marker.replace(str(day), str(nd))`; since the decimal digits of `day`
occur exactly once in each marker template, that equals instantiating the
template at `nd`, which is how it is transcribed here.) -/
def dayMarkers (d : ℕ) : List Str :=
  [lit "### Day " ++ natDigits d,
   lit "## Day " ++ natDigits d,
   lit "Day " ++ natDigits d ++ lit ":",
   lit "Day " ++ natDigits d ++ lit " -"]

/-- All positions (in `rest`, the text after the day-`d` marker) of any
marker of any later day `nd ∈ [d+1, duration]`, in the nested-loop order of
the code (`for next_day in range(day+1, days+1): for next_marker in
day_markers: ...`). -/
def nextDayIdxList (rest : Str) (d duration : ℕ) : List ℕ :=
  (List.range' (d + 1) (duration - d)).flatMap
    (fun nd => (dayMarkers nd).filterMap (fun m => findIdx rest m))

/-- Content of day `d`: text after the first (in priority order) day-`d`
marker present, cut at the smallest position of any later-day marker
(`next_day_idx`), or running to end-of-text; `""` when no day-`d` marker is
present. -/
def dayContent (text : Str) (d duration : ℕ) : Str :=
  match (dayMarkers d).find? (fun m => containsStr text m) with
  | none => []
  | some m =>
    let rest := afterFirst text m
    match minIdx (nextDayIdxList rest d duration) with
    | none => rest
    | some i => rest.take i

def morningMarkers : List Str :=
  [lit "Morning:", lit "**Morning:**", lit "#### Morning", lit "### Morning"]

def afternoonMarkers : List Str :=
  [lit "Afternoon:", lit "**Afternoon:**", lit "#### Afternoon", lit "### Afternoon"]

def eveningMarkers : List Str :=
  [lit "Evening:", lit "**Evening:**", lit "#### Evening", lit "### Evening"]

/-- Smallest position of any of `markers` in `rest`, accumulated the way
the code tracks `afternoon_marker_idx` / `evening_marker_idx`. -/
def minMarkerIdx (markers : List Str) (rest : Str) : Option ℕ :=
  minIdx (markers.filterMap (fun m => findIdx rest m))

/-- Morning extraction (lines 433–466): after the first morning marker,
cut at the earliest afternoon marker; failing that at the earliest evening
marker; failing that split at the first blank line, then at the first line
break. -/
def extractMorning (content : Str) : Option Str :=
  match morningMarkers.find? (fun m => containsStr content m) with
  | none => none
  | some m =>
    let rest := afterFirst content m
    match minMarkerIdx afternoonMarkers rest with
    | some i => some (pyStrip (rest.take i))
    | none =>
      match minMarkerIdx eveningMarkers rest with
      | some i => some (pyStrip (rest.take i))
      | none =>
        if containsStr rest (lit "\n\n") then some (pyStrip (beforeFirst rest (lit "\n\n")))
        else some (pyStrip (beforeFirst rest (lit "\n")))

/-- Afternoon extraction (lines 468–490): cut at the earliest evening
marker, else blank line, else line break. -/
def extractAfternoon (content : Str) : Option Str :=
  match afternoonMarkers.find? (fun m => containsStr content m) with
  | none => none
  | some m =>
    let rest := afterFirst content m
    match minMarkerIdx eveningMarkers rest with
    | some i => some (pyStrip (rest.take i))
    | none =>
      if containsStr rest (lit "\n\n") then some (pyStrip (beforeFirst rest (lit "\n\n")))
      else some (pyStrip (beforeFirst rest (lit "\n")))

/-- Evening extraction (lines 492–503): cut at the first blank line, else
take the whole remaining day content. -/
def extractEvening (content : Str) : Option Str :=
  match eveningMarkers.find? (fun m => containsStr content m) with
  | none => none
  | some m =>
    let rest := afterFirst content m
    if containsStr rest (lit "\n\n") then some (pyStrip (beforeFirst rest (lit "\n\n")))
    else some (pyStrip rest)

/-- One loop iteration of the day loop: an `ItineraryDayActivity` is
appended only when the extracted day content is non-empty
(`if day_content:`); its date is `depart_date + (day - 1)` days. -/
def mkDayEntry (req : TravelRequest) (sh : Option HotelOption) (text : Str)
    (d : ℕ) : Option ItineraryDayActivity :=
  if dayContent text d req.duration = [] then none
  else some
    { day := d
      date := req.depart_date + (d : ℤ) - 1
      description := pyStrip (dayContent text d req.duration)
      morning := extractMorning (dayContent text d req.duration)
      afternoon := extractAfternoon (dayContent text d req.duration)
      evening := extractEvening (dayContent text d req.duration)
      accommodation := Option.map (fun h => h.name) sh }

/-- `for day in range(1, days + 1)` collecting the appended entries. -/
def dailyPlan (req : TravelRequest) (sh : Option HotelOption) (text : Str) :
    List ItineraryDayActivity :=
  (List.range' 1 req.duration).filterMap (mkDayEntry req sh text)

/-! ## Cost reconciler (`_parse_itinerary`, lines 522–583) -/

/-- Digit or comma — the `[\d,]` character class. -/
def isNumChar (c : Char) : Bool := c.isDigit || c = ','

/-- Lower-casing for `re.IGNORECASE` matching (the patterns are ASCII). -/
def lowerChar (c : Char) : Char :=
  if 'A' ≤ c ∧ c ≤ 'Z' then Char.ofNat (c.toNat + 32) else c

/-- Case-insensitive `startsWith`. -/
def ciStartsWith (hay needle : Str) : Bool :=
  startsWith (hay.map lowerChar) (needle.map lowerChar)

/-- Match `\s*([\d,]+(\.\d+)?)` at the head of `s`, returning the captured
group and the remainder after the match.  (Backtracking is vacuous here:
`\s`, `[\d,]` and `\.` are pairwise disjoint choices at each boundary.) -/
def matchNumRem (s : Str) : Option (Str × Str) :=
  let s1 := s.dropWhile pyIsSpace
  let ip := s1.takeWhile isNumChar
  if ip = [] then none
  else
    let s2 := s1.drop ip.length
    match s2 with
    | '.' :: s3 =>
      let fr := s3.takeWhile Char.isDigit
      if fr = [] then some (ip, s2) else some (ip ++ '.' :: fr, s3.drop fr.length)
    | _ => some (ip, s2)

/-- The captured group of `\s*([\d,]+(\.\d+)?)` at the head of `s`. -/
def matchNum (s : Str) : Option Str := (matchNumRem s).map (fun p => p.1)

/-- Value of a run of decimal digit characters. -/
def digitsVal (s : Str) : ℕ := s.foldl (fun n c => 10 * n + (c.toNat - 48)) 0

/-- Value of the comma-stripped group `\d*(\.\d+)?` (integer digits,
optional fraction). -/
def parseNumCore (s : Str) : ℚ :=
  match s.drop (s.takeWhile Char.isDigit).length with
  | '.' :: fr => (digitsVal (s.takeWhile Char.isDigit) : ℚ)
      + (digitsVal fr : ℚ) / (10 ^ fr.length : ℚ)
  | _ => (digitsVal (s.takeWhile Char.isDigit) : ℚ)

/-- `float(group.replace(',', ''))`: `none` models the `ValueError` raised
when the group contains no digit at all (e.g. only commas). -/
def parseNum (g : Str) : Option ℚ :=
  if g.filter (fun c => c ≠ ',') = [] then none
  else some (parseNumCore (g.filter (fun c => c ≠ ',')))

/-- Try the pattern `Total cost:\s*SGD\s*([\d,]+(\.\d+)?)` (IGNORECASE)
at the head of the suffix `t` (the two first patterns of `cost_patterns`
differ only in case, hence coincide under IGNORECASE). -/
def matchTotalCost (t : Str) : Option Str :=
  if ciStartsWith t (lit "Total cost:") then
    let r1 := (t.drop (lit "Total cost:").length).dropWhile pyIsSpace
    if ciStartsWith r1 (lit "SGD") then matchNum (r1.drop 3) else none
  else none

/-- The `.*?SGD\s*([\d,]+(\.\d+)?)` tail of the three phrase patterns:
non-greedy gap (`.` does not cross a newline: no DOTALL flag), earliest
`SGD` (IGNORECASE) followed by a number wins; on number failure the gap
keeps growing. -/
def matchGap : Str → Option Str
  | [] => none
  | c :: rest =>
    match (if ciStartsWith (c :: rest) (lit "SGD") then matchNum ((c :: rest).drop 3) else none) with
    | some g => some g
    | none => if c = '\n' then none else matchGap rest

/-- Try `phrase.*?SGD\s*([\d,]+(\.\d+)?)` (IGNORECASE) at the head of `t`. -/
def matchPhraseGap (phrase : Str) (t : Str) : Option Str :=
  if ciStartsWith t phrase then matchGap (t.drop phrase.length) else none

/-- `re.search`: scan start positions left to right, first matching suffix
wins. -/
def searchPat (m : Str → Option Str) : Str → Option Str
  | [] => m []
  | c :: rest =>
    match m (c :: rest) with
    | some g => some g
    | none => searchPat m rest

/-- One `cost_patterns` loop iteration: a found match whose group fails
`float` conversion is skipped (`except ValueError: pass`). -/
def tryPat (m : Str → Option Str) (text : Str) : Option ℚ :=
  match searchPat m text with
  | none => none
  | some g => parseNum g

/-- The `cost_patterns` loop: first pattern (in order) whose leftmost match
parses to a float wins; the loop then `break`s whether or not the value
fits the budget. -/
def tryPatterns (text : Str) : Option ℚ :=
  match tryPat matchTotalCost text with
  | some v => some v
  | none =>
    match tryPat matchTotalCost text with
    | some v => some v
    | none =>
      match tryPat (matchPhraseGap (lit "estimated total cost")) text with
      | some v => some v
      | none =>
        match tryPat (matchPhraseGap (lit "total budget")) text with
        | some v => some v
        | none => tryPat (matchPhraseGap (lit "estimated cost")) text

/-- `re.findall(r'SGD\s*([\d,]+(\.\d+)?)', text)` (case-sensitive, no
flags): non-overlapping matches scanning left to right, resuming after
each match.  Each step consumes at least one character, so fuel equal to
the text length suffices for a full scan. -/
def scanMentions : ℕ → Str → List (Option ℚ)
  | 0, _ => []
  | _, [] => []
  | fuel + 1, c :: rest =>
    if startsWith (c :: rest) (lit "SGD") then
      match matchNumRem ((c :: rest).drop 3) with
      | some (g, rem) => parseNum g :: scanMentions fuel rem
      | none => scanMentions fuel rest
    else scanMentions fuel rest

/-- The activity-cost accumulation: sum the parsed mentions with
`0 < cost < 500`, skipping conversion failures. -/
def mentionSum (text : Str) : ℚ :=
  (scanMentions text.length text).foldl
    (fun acc v? =>
      match v? with
      | none => acc
      | some v => if v < 500 ∧ 0 < v then acc + v else acc) 0

/-- `actual_cost` after the extraction step (lines 545–556): a
successfully parsed explicit total replaces the base cost only when it is
within budget. -/
def costAfterExtraction (budget base : ℚ) (extracted : Option ℚ) : ℚ :=
  match extracted with
  | some v => if v ≤ budget then v else base
  | none => base

/-- `actual_cost` after the mention step (lines 559–578): `if not
extracted_cost:` — the mention sum (capped at the remaining budget) is
added only when no pattern parsed (`None`) or the parsed value was the
falsy `0.0`. -/
def costAfterMentions (budget : ℚ) (extracted : Option ℚ) (msum a1 : ℚ) : ℚ :=
  if extracted = none ∨ extracted = some 0 then a1 + min msum (budget - a1) else a1

/-- Final hard clamp (lines 581–583). -/
def clampToBudget (budget a : ℚ) : ℚ := if budget < a then budget else a

/-- Cost reconciliation (lines 536–583), assembled. -/
def reconcile (budget base : ℚ) (text : Str) : ℚ :=
  clampToBudget budget
    (costAfterMentions budget (tryPatterns text) (mentionSum text)
      (costAfterExtraction budget base (tryPatterns text)))

/-- Base cost: selected flight price plus selected hotel price-per-night
times `max(1, duration - 1)` nights (lines 522–530). -/
def baseCost (sf : Option FlightOption) (sh : Option HotelOption) (duration : ℕ) : ℚ :=
  flightPrice sf + (match sh with
    | some h => h.price_per_night * (nightsOf duration : ℚ)
    | none => 0)

/-! ## Summary extraction (`_parse_itinerary`, lines 586–601) -/

/-- First summary stage (lines 588–595): the text after the first `"# "`
up to the first blank line (stripped), or the whole remainder when no
blank line follows; `""` when the text has no `"# "` at all. -/
def summaryS1 (text : Str) : Str :=
  if containsStr text (lit "# ") then
    (if containsStr (afterFirst text (lit "# ")) (lit "\n\n") then
       pyStrip (beforeFirst (afterFirst text (lit "# ")) (lit "\n\n"))
     else pyStrip (afterFirst text (lit "# ")))
  else []

/-- Second summary stage (lines 597–598): `if not summary and "\n\n" in
itinerary_text`. -/
def summaryS2 (text : Str) : Str :=
  if summaryS1 text = [] ∧ containsStr text (lit "\n\n") = true then
    pyStrip (beforeFirst text (lit "\n\n"))
  else summaryS1 text

/-- Summary cascade (lines 586–601): heading paragraph, else leading
paragraph, else the first 200 characters — each piece stripped. -/
def summaryOf (text : Str) : Str :=
  if summaryS2 text = [] then pyStrip (text.take 200) else summaryS2 text

/-! ## `_parse_itinerary` assembled -/

/-- The structured itinerary produced by `_parse_itinerary` from the
travel request, the generated text and the candidate lists. -/
def parseItinerary (req : TravelRequest) (text : Str)
    (flights : List FlightOption) (hotels : List HotelOption) : Itinerary :=
  let sf := selectFlight req.budget flights text
  let sh := selectHotel req.budget req.duration sf hotels text
  { selected_flight := sf
    selected_hotel := sh
    daily_plan := dailyPlan req sh text
    summary := summaryOf text
    total_cost := reconcile req.budget (baseCost sf sh req.duration) text }

/-! ## Itinerary text generator (`_generate_itinerary_text`,
`_generate_fallback_itinerary`, lines 291–353) -/

/-- Round half to even (how Python `format` rounds). -/
def roundHalfEven (q : ℚ) : ℤ :=
  let f := Int.floor q
  if q - f < 1/2 then f
  else if (1/2 : ℚ) < q - f then f + 1
  else if f % 2 = 0 then f else f + 1

/-- Two-digit zero-padded rendering of `k < 100`. -/
def twoDigits (k : ℕ) : Str := if k < 10 then '0' :: natDigits k else natDigits k

/-- Python `f"{q:.2f}"`: fixed-point rendering with two decimals. -/
def fmt2 (q : ℚ) : Str :=
  let n := roundHalfEven (q * 100)
  (if n < 0 then lit "-" else []) ++ natDigits (n.natAbs / 100) ++ lit "." ++ twoDigits (n.natAbs % 100)

/-- One day sub-section of the fallback template. -/
def daySection (d : ℕ) : Str :=
  lit "### Day " ++ natDigits d ++ lit "\n"
    ++ lit "- Morning: Breakfast at hotel, explore local area\n"
    ++ lit "- Afternoon: Visit main tourist attractions\n"
    ++ lit "- Evening: Dinner at local restaurant\n\n"

/-- The day loop `for day in range(1, duration + 1)` of the fallback. -/
def fallbackDays : ℕ → Str
  | 0 => []
  | n + 1 => fallbackDays n ++ daySection (n + 1)

/-- `_generate_fallback_itinerary`: the deterministic fallback template. -/
def fallbackText (req : TravelRequest) : Str :=
  lit "# Trip to " ++ req.destination ++ lit "\n\n"
    ++ lit "## Overview\n"
    ++ lit "A " ++ natDigits req.duration ++ lit "-day trip to " ++ req.destination
    ++ lit " from " ++ req.origin ++ lit ".\n\n"
    ++ lit "## Suggested Flight\n"
    ++ lit "Economy class flight from " ++ req.origin ++ lit " to " ++ req.destination ++ lit ".\n\n"
    ++ lit "## Suggested Accommodation\n"
    ++ lit "Standard hotel in " ++ req.destination ++ lit " city center.\n\n"
    ++ lit "## Day-by-Day Itinerary\n"
    ++ fallbackDays req.duration
    ++ lit "## Estimated Budget\n"
    ++ lit "Total estimated cost: SGD " ++ fmt2 (req.budget * (9/10)) ++ lit "\n"

/-- `_generate_itinerary_text`: the completion call either returns text
(stripped) or raises; any exception is caught and the deterministic
fallback template is returned instead — nothing propagates to the caller. -/
def generateItineraryText (llm : Except Str Str) (req : TravelRequest) : Str :=
  match llm with
  | Except.ok t => pyStrip t
  | Except.error _ => fallbackText req

/-! ## Generic list helpers shared by the claim proofs -/

theorem find?_append_first {α : Type} (p : α → Bool) {l1 : List α} {a : α}
    (l2 : List α) (h : ∀ x ∈ l1, p x = false) (ha : p a = true) :
    (l1 ++ a :: l2).find? p = some a := by
  induction l1 with
  | nil => simp [List.find?, ha]
  | cons x xs ih =>
    have hx : p x = false := h x (List.mem_cons_self _ _)
    simp only [List.cons_append, List.find?, hx]
    exact ih (fun y hy => h y (List.mem_cons_of_mem _ hy))

/-! ## Claim C3 — flight selection and the dead bare-airline branch

The claim says a flight with no flight number is matched by its bare
airline name.  In the code `hasattr(flight, 'flight_number')` is always
true (the attribute is a declared pydantic field defaulting to `None`), so
the identifier is always rendered with the f-string, giving
`"SIA None"` for a flight without a number — the bare-airline branch is
dead code, visibly contrary to its own intent.  On the failing input below
the text mentions `SIA` and the SIA flight fits in 0.6 × budget, yet the
cheapest default (QF) is returned. -/

def siaFlight : FlightOption :=
  { airline := lit "SIA", price := 300, flight_number := none }

def qfFlight : FlightOption :=
  { airline := lit "QF", price := 100, flight_number := some (lit "QF1") }

def textC3 : Str := lit "Fly SIA to Tokyo"

/-- C3: evaluating the selector at the failing input: the text contains
the bare airline `"SIA"` and the SIA flight fits within 0.6 × budget, so
by the claim it should be selected; the code instead renders its
identifier as `"SIA None"`, finds no occurrence, and keeps the cheapest
default flight (QF). -/
theorem claim_C3 :
    selectFlight 1000 [siaFlight, qfFlight] textC3 = some qfFlight ∧
    qfFlight ≠ siaFlight ∧
    containsStr textC3 siaFlight.airline = true ∧
    siaFlight.price ≤ 1000 * (6/10) ∧
    flightIdentifier siaFlight = lit "SIA None" ∧
    containsStr textC3 (flightIdentifier siaFlight) = false :=
  ⟨by decide, by decide, by decide, by norm_num [siaFlight], by decide, by decide⟩

/-! ## Claim C7 — hotel selection rule -/

/-- C7: a hotel whose name does not occur in the text is only ever
selected when it is itself the cheapest (default) hotel, and the override
picks exactly the first hotel in original list order whose name occurs in
the text and whose per-night price is within
`(budget − selected_flight.price) / nights × 0.7`. -/
theorem claim_C7 (req : TravelRequest) (flights : List FlightOption)
    (hotels : List HotelOption) (text : Str) :
    (parseItinerary req text flights hotels).selected_hotel =
      selectHotel req.budget req.duration (selectFlight req.budget flights text) hotels text ∧
    (∀ h, selectHotel req.budget req.duration (selectFlight req.budget flights text) hotels text
          = some h →
        containsStr text h.name = false → cheapestHotel hotels = some h) ∧
    (∀ l1 h l2, hotels = l1 ++ h :: l2 →
        containsStr text h.name = true →
        h.price_per_night ≤ maxHotelPerNight req.budget req.duration
          (selectFlight req.budget flights text) →
        (∀ h' ∈ l1, ¬(containsStr text h'.name = true ∧
            h'.price_per_night ≤ maxHotelPerNight req.budget req.duration
              (selectFlight req.budget flights text))) →
        selectHotel req.budget req.duration (selectFlight req.budget flights text) hotels text
          = some h) := by
  refine ⟨rfl, ?_, ?_⟩
  · intro h hsel hnc
    unfold selectHotel at hsel
    cases hf : hotels.find? (fun h =>
        containsStr text h.name && decide (h.price_per_night ≤
          maxHotelPerNight req.budget req.duration (selectFlight req.budget flights text))) with
    | some g =>
      rw [hf] at hsel
      injection hsel with hsel
      subst hsel
      have := List.find?_some hf
      rw [Bool.and_eq_true] at this
      rw [this.1] at hnc
      cases hnc
    | none =>
      rw [hf] at hsel
      exact hsel
  · intro l1 h l2 hsplit hc hle hall
    subst hsplit
    unfold selectHotel
    rw [find?_append_first _ l2 ?hfail ?hok]
    case hok =>
      rw [Bool.and_eq_true]
      exact ⟨hc, decide_eq_true hle⟩
    case hfail =>
      intro x hx
      have hnx := hall x hx
      cases hcx : containsStr text x.name with
      | false => simp [hcx]
      | true =>
        have : ¬ x.price_per_night ≤ maxHotelPerNight req.budget req.duration
            (selectFlight req.budget flights text) := fun hxe => hnx ⟨hcx, hxe⟩
        simp [hcx, this]

def hotelOther : HotelOption := { name := lit "Budget Inn", price_per_night := 50 }

def hotelGrand : HotelOption := { name := lit "Grand Palace", price_per_night := 120 }

def reqC7 : TravelRequest :=
  { origin := lit "SIN", destination := lit "BKK", depart_date := 0, return_date := 3
    duration := 4, budget := 2000, preferences := [], adults := 1 }

def textC7 : Str := lit "Stay at the Grand Palace hotel."

/-- C7 witness: with no flight selected, nights = 3 and ceiling
2000 / 3 × 0.7; the second hotel `Grand Palace` (120 per night) is named in
the text, the cheaper first hotel is not, so the override selects it. -/
theorem claim_C7_witness :
    selectHotel reqC7.budget reqC7.duration (selectFlight reqC7.budget [] textC7)
      [hotelOther, hotelGrand] textC7 = some hotelGrand :=
  (claim_C7 reqC7 [] [hotelOther, hotelGrand] textC7).2.2 [hotelOther] hotelGrand []
    rfl (by decide) (by norm_num [hotelGrand, maxHotelPerNight, flightPrice, nightsOf, reqC7, selectFlight, cheapestFlight])
    (by intro h' hh'; simp only [List.mem_singleton] at hh'; subst hh'; decide)

/-! ## Claim C4 — day-boundary detection

The claim says the content of day `d` ends at the earliest day-`(d+1)`
marker.  The code scans the markers of *all* later days
(`for next_day in range(day + 1, days + 1)`), so when the day-`(d+1)`
markers are absent but a later day marker is present the content still
gets cut there — refuted below; the amended statement (earliest marker of
*any* later day in `(d, duration]`) is proved. -/

/-- `i` is the position in `rest` of some marker of some later day
`nd ∈ (d, duration]`. -/
def laterMarkerAt (rest : Str) (d duration i : ℕ) : Prop :=
  ∃ nd ∈ List.range' (d + 1) (duration - d), ∃ m ∈ dayMarkers nd, findIdx rest m = some i

theorem mem_nextDayIdxList {rest : Str} {d duration i : ℕ} :
    i ∈ nextDayIdxList rest d duration ↔ laterMarkerAt rest d duration i := by
  simp [nextDayIdxList, laterMarkerAt, List.mem_flatMap, List.mem_filterMap]

instance laterMarkerAtDecidable (rest : Str) (d duration i : ℕ) :
    Decidable (laterMarkerAt rest d duration i) :=
  decidable_of_iff (i ∈ nextDayIdxList rest d duration) mem_nextDayIdxList

/-- Day-content extraction as claim C4 words it: the cut position is the
earliest occurrence of a day-`(d+1)` marker only (claim-side definition,
for comparison with `dayContent`). -/
def dayContentClaimed (text : Str) (d : ℕ) : Str :=
  match (dayMarkers d).find? (fun m => containsStr text m) with
  | none => []
  | some m =>
    let rest := afterFirst text m
    match minIdx ((dayMarkers (d + 1)).filterMap (fun m2 => findIdx rest m2)) with
    | none => rest
    | some i => rest.take i

def textC4 : Str := lit "### Day 1\nfoo\n### Day 3\nbar"

/-- C4 counterexample: with duration 3 and a text containing markers for
Day 1 and Day 3 but not Day 2, the claim predicts day 1 runs to
end-of-text (no day-2 marker exists), but the code cuts it at the
`### Day 3` marker. -/
theorem claim_C4_cex :
    dayContent textC4 1 3 = lit "\nfoo\n" ∧
    dayContentClaimed textC4 1 = lit "\nfoo\n### Day 3\nbar" ∧
    dayContent textC4 1 3 ≠ dayContentClaimed textC4 1 := by
  refine ⟨by decide, by decide, by decide⟩

/-- C4 (amended): for each day `d`, the four markers are tried in priority
order against the full text; the first one present starts the content,
which ends at the earliest position of a marker of *any* later day
`nd ∈ (d, duration]` (any of the four variants), or at end-of-text when no
such marker occurs; a day with no marker contributes nothing, and a text
with no day markers at all yields an empty daily plan without error. -/
theorem claim_C4 (text : Str) (duration d : ℕ) :
    ((∀ m ∈ dayMarkers d, containsStr text m = false) →
        dayContent text d duration = []) ∧
    (∀ m, (dayMarkers d).find? (fun m' => containsStr text m') = some m →
      ((∀ i, ¬ laterMarkerAt (afterFirst text m) d duration i) →
          dayContent text d duration = afterFirst text m) ∧
      (∀ i, laterMarkerAt (afterFirst text m) d duration i →
          (∀ j < i, ¬ laterMarkerAt (afterFirst text m) d duration j) →
          dayContent text d duration = (afterFirst text m).take i)) ∧
    (∀ req : TravelRequest, ∀ sh : Option HotelOption, req.duration = duration →
      (∀ d' ∈ List.range' 1 duration, ∀ m ∈ dayMarkers d', containsStr text m = false) →
      dailyPlan req sh text = []) := by
  refine ⟨?_, ?_, ?_⟩
  · intro habs
    have hnone : (dayMarkers d).find? (fun m => containsStr text m) = none := by
      rw [List.find?_eq_none]
      intro x hx
      simp [habs x hx]
    unfold dayContent
    rw [hnone]
  · intro m hfind
    constructor
    · intro hno
      have hnil : nextDayIdxList (afterFirst text m) d duration = [] := by
        rw [List.eq_nil_iff_forall_not_mem]
        intro i hi
        exact hno i (mem_nextDayIdxList.1 hi)
      unfold dayContent
      rw [hfind]
      simp only [hnil]
      rfl
    · intro i hi hmin
      have hmem : i ∈ nextDayIdxList (afterFirst text m) d duration :=
        mem_nextDayIdxList.2 hi
      have hle : ∀ j ∈ nextDayIdxList (afterFirst text m) d duration, i ≤ j := by
        intro j hj
        by_contra hji
        exact hmin j (by omega) (mem_nextDayIdxList.1 hj)
      unfold dayContent
      rw [hfind]
      simp only [minIdx_eq_some_of hmem hle]
  · intro req sh hdur habs
    unfold dailyPlan
    rw [List.filterMap_eq_nil_iff]
    intro d' hd'
    have hcontent : dayContent text d' req.duration = [] := by
      have hnone : (dayMarkers d').find? (fun m => containsStr text m) = none := by
        rw [List.find?_eq_none]
        intro x hx
        simp [habs d' (hdur ▸ hd') x hx]
      unfold dayContent
      rw [hnone]
    unfold mkDayEntry
    simp [hcontent]

def textC4w : Str := lit "### Day 1\nfoo\n### Day 2\nbar"

/-- C4 witness: on a two-day text the day-1 content is cut exactly at the
(unique, hence earliest) later-day marker position 5. -/
theorem claim_C4_witness :
    (dayMarkers 1).find? (fun m' => containsStr textC4w m') = some (lit "### Day 1") ∧
    laterMarkerAt (afterFirst textC4w (lit "### Day 1")) 1 2 5 ∧
    dayContent textC4w 1 2 = (afterFirst textC4w (lit "### Day 1")).take 5 :=
  ⟨by decide, by decide,
    ((claim_C4 textC4w 2 1).2.1 (lit "### Day 1") (by decide)).2 5 (by decide) (by decide)⟩

/-! ## Claim C5 — morning-segment boundary

The claim says that when no afternoon marker is found the parser falls
back directly to the blank-line / line-break split.  The code first looks
for an evening marker and only then falls back — refuted below; the
amended cascade (afternoon markers, then evening markers, then blank line,
then line break) is proved. -/

/-- `i` is the position in `rest` of one of `markers`. -/
def segMarkerAt (markers : List Str) (rest : Str) (i : ℕ) : Prop :=
  ∃ m ∈ markers, findIdx rest m = some i

theorem mem_segIdxList {markers : List Str} {rest : Str} {i : ℕ} :
    i ∈ markers.filterMap (fun m => findIdx rest m) ↔ segMarkerAt markers rest i := by
  simp [segMarkerAt, List.mem_filterMap]

instance segMarkerAtDecidable (markers : List Str) (rest : Str) (i : ℕ) :
    Decidable (segMarkerAt markers rest i) :=
  decidable_of_iff (i ∈ markers.filterMap (fun m => findIdx rest m)) mem_segIdxList

theorem minMarkerIdx_eq_some_of {markers : List Str} {rest : Str} {i : ℕ}
    (hi : segMarkerAt markers rest i) (hmin : ∀ j < i, ¬ segMarkerAt markers rest j) :
    minMarkerIdx markers rest = some i := by
  refine minIdx_eq_some_of (mem_segIdxList.2 hi) ?_
  intro j hj
  by_contra hji
  exact hmin j (by omega) (mem_segIdxList.1 hj)

theorem minMarkerIdx_eq_none_of {markers : List Str} {rest : Str}
    (h : ∀ i, ¬ segMarkerAt markers rest i) : minMarkerIdx markers rest = none := by
  unfold minMarkerIdx
  have hnil : markers.filterMap (fun m => findIdx rest m) = [] := by
    rw [List.eq_nil_iff_forall_not_mem]
    intro i hi
    exact h i (mem_segIdxList.1 hi)
  rw [hnil]
  rfl

/-- Morning extraction as claim C5 words it: cut at the earliest afternoon
marker, and when none is found fall back directly to the blank-line /
line-break split (claim-side definition, for comparison with
`extractMorning`). -/
def morningClaimed (content : Str) : Option Str :=
  match morningMarkers.find? (fun m => containsStr content m) with
  | none => none
  | some m =>
    let rest := afterFirst content m
    match minMarkerIdx afternoonMarkers rest with
    | some i => some (pyStrip (rest.take i))
    | none =>
      if containsStr rest (lit "\n\n") then some (pyStrip (beforeFirst rest (lit "\n\n")))
      else some (pyStrip (beforeFirst rest (lit "\n")))

def contentC5 : Str := lit "Morning: walk\n\npara\nEvening: dine"

/-- C5 counterexample: a day content with a morning marker, no afternoon
marker, an evening marker after a blank line: the claim predicts the
morning text stops at the blank line (`"walk"`), but the code cuts at the
evening marker and yields `"walk\n\npara"`. -/
theorem claim_C5_cex :
    extractMorning contentC5 = some (lit "walk\n\npara") ∧
    morningClaimed contentC5 = some (lit "walk") ∧
    extractMorning contentC5 ≠ morningClaimed contentC5 := by
  refine ⟨by decide, by decide, by decide⟩

/-- C5 (amended): the morning segment starts after the first matching
morning marker and runs to the earliest afternoon-marker position; when no
afternoon marker is found the code next tries the earliest evening-marker
position, and only when neither is present falls back to splitting at the
first blank line, then at the first line break; a day content with no
morning marker leaves the segment `none` rather than empty. -/
theorem claim_C5 (content : Str) :
    ((∀ m ∈ morningMarkers, containsStr content m = false) →
        extractMorning content = none) ∧
    (∀ m, morningMarkers.find? (fun m' => containsStr content m') = some m →
      (∀ i, segMarkerAt afternoonMarkers (afterFirst content m) i →
          (∀ j < i, ¬ segMarkerAt afternoonMarkers (afterFirst content m) j) →
          extractMorning content = some (pyStrip ((afterFirst content m).take i))) ∧
      ((∀ i, ¬ segMarkerAt afternoonMarkers (afterFirst content m) i) →
        (∀ i, segMarkerAt eveningMarkers (afterFirst content m) i →
            (∀ j < i, ¬ segMarkerAt eveningMarkers (afterFirst content m) j) →
            extractMorning content = some (pyStrip ((afterFirst content m).take i))) ∧
        ((∀ i, ¬ segMarkerAt eveningMarkers (afterFirst content m) i) →
          (containsStr (afterFirst content m) (lit "\n\n") = true →
              extractMorning content =
                some (pyStrip (beforeFirst (afterFirst content m) (lit "\n\n")))) ∧
          (containsStr (afterFirst content m) (lit "\n\n") = false →
              extractMorning content =
                some (pyStrip (beforeFirst (afterFirst content m) (lit "\n"))))))) := by
  constructor
  · intro habs
    have hnone : morningMarkers.find? (fun m => containsStr content m) = none := by
      rw [List.find?_eq_none]
      intro x hx
      simp [habs x hx]
    unfold extractMorning
    rw [hnone]
  · intro m hfind
    refine ⟨?_, ?_⟩
    · intro i hi hmin
      unfold extractMorning
      rw [hfind]
      simp only [minMarkerIdx_eq_some_of hi hmin]
    · intro hnoAft
      have hAftNone : minMarkerIdx afternoonMarkers (afterFirst content m) = none :=
        minMarkerIdx_eq_none_of hnoAft
      refine ⟨?_, ?_⟩
      · intro i hi hmin
        unfold extractMorning
        rw [hfind]
        simp only [hAftNone, minMarkerIdx_eq_some_of hi hmin]
      · intro hnoEve
        have hEveNone : minMarkerIdx eveningMarkers (afterFirst content m) = none :=
          minMarkerIdx_eq_none_of hnoEve
        refine ⟨?_, ?_⟩
        · intro hbl
          unfold extractMorning
          rw [hfind]
          simp only [hAftNone, hEveNone, hbl]
          rfl
        · intro hbl
          unfold extractMorning
          rw [hfind]
          simp only [hAftNone, hEveNone, hbl]
          rfl

def contentC5w : Str := lit "Morning: stroll\nAfternoon: museum"

/-- C5 witness: with a morning and an afternoon marker present, the
morning text is cut at the afternoon-marker position 8 and stripped. -/
theorem claim_C5_witness :
    morningMarkers.find? (fun m' => containsStr contentC5w m') = some (lit "Morning:") ∧
    segMarkerAt afternoonMarkers (afterFirst contentC5w (lit "Morning:")) 8 ∧
    extractMorning contentC5w =
      some (pyStrip ((afterFirst contentC5w (lit "Morning:")).take 8)) :=
  ⟨by decide, by decide,
    ((claim_C5 contentC5w).2 (lit "Morning:") (by decide)).1 8 (by decide) (by decide)⟩

/-! ## Claims C6 and C10 — daily-plan shape -/

theorem mkDayEntry_some {req : TravelRequest} {sh : Option HotelOption} {text : Str}
    {d : ℕ} {e : ItineraryDayActivity} (h : mkDayEntry req sh text d = some e) :
    dayContent text d req.duration ≠ [] ∧ e.day = d ∧
      e.date = req.depart_date + (d : ℤ) - 1 := by
  unfold mkDayEntry at h
  by_cases hc : dayContent text d req.duration = []
  · simp [hc] at h
  · rw [if_neg hc] at h
    injection h with h
    subst h
    exact ⟨hc, rfl, rfl⟩

theorem mkDayEntry_of_content {req : TravelRequest} {sh : Option HotelOption}
    {text : Str} {d : ℕ} (hc : dayContent text d req.duration ≠ []) :
    mkDayEntry req sh text d = some
      { day := d
        date := req.depart_date + (d : ℤ) - 1
        description := pyStrip (dayContent text d req.duration)
        morning := extractMorning (dayContent text d req.duration)
        afternoon := extractAfternoon (dayContent text d req.duration)
        evening := extractEvening (dayContent text d req.duration)
        accommodation := Option.map (fun h => h.name) sh } := by
  unfold mkDayEntry
  simp [hc]

theorem nodup_filterMap_day (l : List ℕ) (f : ℕ → Option ItineraryDayActivity)
    (hf : ∀ d e, f d = some e → e.day = d) (hl : l.Nodup) :
    (((l.filterMap f).map (fun e => e.day)).Nodup) := by
  induction l with
  | nil => simp
  | cons d rest ih =>
    rw [List.nodup_cons] at hl
    cases hfd : f d with
    | none => simpa [List.filterMap_cons, hfd] using ih hl.2
    | some e =>
      simp only [List.filterMap_cons, hfd, List.map_cons, List.nodup_cons]
      refine ⟨?_, ih hl.2⟩
      intro hmem
      rw [List.mem_map] at hmem
      obtain ⟨e', he', hday⟩ := hmem
      rw [List.mem_filterMap] at he'
      obtain ⟨d', hd', hfd'⟩ := he'
      have h1 := hf d e hfd
      have h2 := hf d' e' hfd'
      have hdd : d = d' := by rw [← h1, ← hday, h2]
      exact hl.1 (hdd ▸ hd')

/-- The daily plan of the parsed itinerary, unfolded. -/
theorem parseItinerary_daily_plan (req : TravelRequest) (text : Str)
    (flights : List FlightOption) (hotels : List HotelOption) :
    (parseItinerary req text flights hotels).daily_plan =
      dailyPlan req (selectHotel req.budget req.duration
        (selectFlight req.budget flights text) hotels text) text := rfl

/-- 2024-06-01 as an integer day number (day 0 of the model; 2024-06-02
and 2024-06-03 are the two following day numbers). -/
def dateJun1 : ℤ := 0

def reqC6 : TravelRequest :=
  { origin := lit "SIN", destination := lit "NRT", depart_date := dateJun1
    return_date := dateJun1 + 3, duration := 3, budget := 3000
    preferences := [], adults := 1 }

def textC6 : Str := lit "# Plan\n\n### Day 1\nA\n### Day 2\nB\n### Day 3\nC"

/-- C6: the daily plan never has more than `duration` entries, every
entry's day index is unique and lies in `[1, duration]`, and every
entry's date is `depart_date + (day − 1)` days; in particular a 3-day
request departing 2024-06-01 whose text carries markers for Days 1–3
yields exactly three entries dated 2024-06-01, 2024-06-02, 2024-06-03. -/
theorem claim_C6 (req : TravelRequest) (text : Str) (flights : List FlightOption)
    (hotels : List HotelOption) :
    ((parseItinerary req text flights hotels).daily_plan.length ≤ req.duration ∧
     (∀ e ∈ (parseItinerary req text flights hotels).daily_plan,
        1 ≤ e.day ∧ e.day ≤ req.duration ∧
          e.date = req.depart_date + (e.day : ℤ) - 1) ∧
     ((parseItinerary req text flights hotels).daily_plan.map (fun e => e.day)).Nodup) ∧
    ((parseItinerary reqC6 textC6 [] []).daily_plan.map (fun e => (e.day, e.date)) =
        [(1, dateJun1), (2, dateJun1 + 1), (3, dateJun1 + 2)] ∧
     (parseItinerary reqC6 textC6 [] []).daily_plan.length = 3) := by
  refine ⟨⟨?_, ?_, ?_⟩, by decide, by decide⟩
  · rw [parseItinerary_daily_plan]
    unfold dailyPlan
    calc ((List.range' 1 req.duration).filterMap _).length
        ≤ (List.range' 1 req.duration).length := List.length_filterMap_le _ _
      _ = req.duration := List.length_range' ..
  · intro e he
    rw [parseItinerary_daily_plan] at he
    unfold dailyPlan at he
    rw [List.mem_filterMap] at he
    obtain ⟨d, hd, hfd⟩ := he
    obtain ⟨-, hday, hdate⟩ := mkDayEntry_some hfd
    have hrange := List.mem_range'_1.1 hd
    subst hday
    exact ⟨hrange.1, by omega, hdate⟩
  · rw [parseItinerary_daily_plan]
    unfold dailyPlan
    refine nodup_filterMap_day _ _ (fun d e h => (mkDayEntry_some h).2.1) ?_
    exact List.nodup_range' _ _

/-- C6 witness: the concrete three-day example, extracted through the
theorem. -/
theorem claim_C6_witness :
    (parseItinerary reqC6 textC6 [] []).daily_plan.map (fun e => (e.day, e.date)) =
      [(1, dateJun1), (2, dateJun1 + 1), (3, dateJun1 + 2)] :=
  (claim_C6 reqC6 textC6 [] []).2.1

/-- C10: a day contributes an entry to the daily plan exactly when it lies
in `[1, duration]` and its extracted content is non-empty; in particular a
day whose marker is present but whose content is the empty string (marker
at end-of-text, or immediately followed by a later-day marker) is
silently skipped. -/
theorem claim_C10 (req : TravelRequest) (text : Str) (flights : List FlightOption)
    (hotels : List HotelOption) (d : ℕ) :
    (∃ e ∈ (parseItinerary req text flights hotels).daily_plan, e.day = d) ↔
      (1 ≤ d ∧ d ≤ req.duration ∧ dayContent text d req.duration ≠ []) := by
  rw [parseItinerary_daily_plan]
  unfold dailyPlan
  constructor
  · rintro ⟨e, he, hday⟩
    rw [List.mem_filterMap] at he
    obtain ⟨d', hd', hfd⟩ := he
    obtain ⟨hc, hday', -⟩ := mkDayEntry_some hfd
    have hrange := List.mem_range'_1.1 hd'
    have : d' = d := by rw [← hday, hday']
    subst this
    exact ⟨hrange.1, by omega, hc⟩
  · rintro ⟨h1, h2, hc⟩
    refine ⟨_, List.mem_filterMap.2 ⟨d, List.mem_range'_1.2 ⟨h1, by omega⟩,
      mkDayEntry_of_content hc⟩, rfl⟩

def reqC10 : TravelRequest :=
  { origin := lit "SIN", destination := lit "KUL", depart_date := 0
    return_date := 2, duration := 2, budget := 800, preferences := [], adults := 1 }

def textC10 : Str := lit "### Day 1\nA\n### Day 2"

/-- C10 witness: day 1 (non-empty content) produces an entry; day 2, whose
marker sits at the very end of the text so its content is empty, does
not. -/
theorem claim_C10_witness :
    (∃ e ∈ (parseItinerary reqC10 textC10 [] []).daily_plan, e.day = 1) ∧
    ¬ (∃ e ∈ (parseItinerary reqC10 textC10 [] []).daily_plan, e.day = 2) :=
  ⟨(claim_C10 reqC10 textC10 [] [] 1).mpr ⟨by decide, by decide, by decide⟩,
   fun hex => by
     have h := (claim_C10 reqC10 textC10 [] [] 2).mp hex
     have hc : dayContent textC10 2 reqC10.duration = [] := by decide
     exact h.2.2 hc⟩

/-! ## Claim C1 — the reconciled total always lies in [0, budget] -/

theorem parseNumCore_nonneg (s : Str) : 0 ≤ parseNumCore s := by
  unfold parseNumCore
  split
  · positivity
  · positivity

theorem parseNum_nonneg {g : Str} {v : ℚ} (h : parseNum g = some v) : 0 ≤ v := by
  unfold parseNum at h
  split at h
  · cases h
  · injection h with h
    exact h ▸ parseNumCore_nonneg _

theorem tryPat_nonneg {m : Str → Option Str} {text : Str} {v : ℚ}
    (h : tryPat m text = some v) : 0 ≤ v := by
  unfold tryPat at h
  cases hs : searchPat m text with
  | none => rw [hs] at h; cases h
  | some g => rw [hs] at h; exact parseNum_nonneg h

theorem tryPatterns_nonneg {text : Str} {v : ℚ} (h : tryPatterns text = some v) :
    0 ≤ v := by
  unfold tryPatterns at h
  cases h1 : tryPat matchTotalCost text with
  | some w =>
    rw [h1] at h
    injection h with h
    exact h ▸ tryPat_nonneg h1
  | none =>
    rw [h1] at h
    cases h3 : tryPat (matchPhraseGap (lit "estimated total cost")) text with
    | some w =>
      rw [h3] at h
      injection h with h
      exact h ▸ tryPat_nonneg h3
    | none =>
      rw [h3] at h
      cases h4 : tryPat (matchPhraseGap (lit "total budget")) text with
      | some w =>
        rw [h4] at h
        injection h with h
        exact h ▸ tryPat_nonneg h4
      | none =>
        rw [h4] at h
        exact tryPat_nonneg h

theorem mentionSum_nonneg (text : Str) : 0 ≤ mentionSum text := by
  unfold mentionSum
  suffices hgen : ∀ (l : List (Option ℚ)) (acc : ℚ), 0 ≤ acc →
      0 ≤ l.foldl (fun acc v? =>
        match v? with
        | none => acc
        | some v => if v < 500 ∧ 0 < v then acc + v else acc) acc by
    exact hgen _ 0 le_rfl
  intro l
  induction l with
  | nil => intro acc h; exact h
  | cons x xs ih =>
    intro acc h
    cases x with
    | none => exact ih acc h
    | some v =>
      simp only [List.foldl_cons]
      split
      next hcond => exact ih _ (by linarith [hcond.2])
      next => exact ih acc h

theorem costAfterExtraction_nonneg (budget base : ℚ) (extracted : Option ℚ)
    (hbase : 0 ≤ base) (hv : ∀ v, extracted = some v → 0 ≤ v) :
    0 ≤ costAfterExtraction budget base extracted := by
  cases extracted with
  | none => exact hbase
  | some v =>
    by_cases hvb : v ≤ budget
    · simp only [costAfterExtraction, if_pos hvb]
      exact hv v rfl
    · simp only [costAfterExtraction, if_neg hvb]
      exact hbase

theorem costAfterMentions_nonneg (budget : ℚ) (extracted : Option ℚ) (msum a1 : ℚ)
    (hb : 0 < budget) (ha1 : 0 ≤ a1) (hm : 0 ≤ msum) :
    0 ≤ costAfterMentions budget extracted msum a1 := by
  unfold costAfterMentions
  split
  · rcases min_cases msum (budget - a1) with ⟨h1, h2⟩ | ⟨h1, h2⟩ <;> rw [h1] <;> linarith
  · exact ha1

theorem reconcile_bounds (budget base : ℚ) (text : Str) (hb : 0 < budget)
    (hbase : 0 ≤ base) :
    0 ≤ reconcile budget base text ∧ reconcile budget base text ≤ budget := by
  have ha1 : 0 ≤ costAfterExtraction budget base (tryPatterns text) :=
    costAfterExtraction_nonneg _ _ _ hbase (fun v hv => tryPatterns_nonneg hv)
  have ha2 : 0 ≤ costAfterMentions budget (tryPatterns text) (mentionSum text)
      (costAfterExtraction budget base (tryPatterns text)) :=
    costAfterMentions_nonneg _ _ _ _ hb ha1 (mentionSum_nonneg text)
  unfold reconcile clampToBudget
  constructor
  · split
    · linarith
    · exact ha2
  · split
    · linarith
    · linarith [not_lt.1 (by assumption : ¬ budget <
        costAfterMentions budget (tryPatterns text) (mentionSum text)
          (costAfterExtraction budget base (tryPatterns text)))]

/-- C1: for a positive budget and non-negative flight and hotel prices,
the reconciled `total_cost` of the parsed itinerary always satisfies
`0 ≤ total_cost ≤ budget`, whatever the generated text. -/
theorem claim_C1 (req : TravelRequest) (text : Str) (flights : List FlightOption)
    (hotels : List HotelOption) (hb : 0 < req.budget)
    (hf : ∀ f ∈ flights, 0 ≤ f.price)
    (hh : ∀ h ∈ hotels, 0 ≤ h.price_per_night) :
    0 ≤ (parseItinerary req text flights hotels).total_cost ∧
      (parseItinerary req text flights hotels).total_cost ≤ req.budget := by
  have htot : (parseItinerary req text flights hotels).total_cost =
      reconcile req.budget
        (baseCost (selectFlight req.budget flights text)
          (selectHotel req.budget req.duration (selectFlight req.budget flights text)
            hotels text) req.duration) text := rfl
  rw [htot]
  refine reconcile_bounds _ _ _ hb ?_
  unfold baseCost
  have h1 : 0 ≤ flightPrice (selectFlight req.budget flights text) := by
    cases hsf : selectFlight req.budget flights text with
    | none => simp [flightPrice]
    | some f =>
      simpa [flightPrice] using hf f (selectFlight_mem hsf)
  have h2 : (0:ℚ) ≤ (match selectHotel req.budget req.duration
      (selectFlight req.budget flights text) hotels text with
    | some h => h.price_per_night * (nightsOf req.duration : ℚ)
    | none => 0) := by
    cases hsh : selectHotel req.budget req.duration
        (selectFlight req.budget flights text) hotels text with
    | none => simp
    | some h =>
      simp only []
      exact mul_nonneg (hh h (selectHotel_mem hsh)) (by positivity)
  linarith

def reqC1 : TravelRequest :=
  { origin := lit "SIN", destination := lit "HKG", depart_date := 0
    return_date := 4, duration := 4, budget := 2000, preferences := [], adults := 1 }

def flightC1 : FlightOption :=
  { airline := lit "FlyDodo", price := 500, flight_number := some (lit "FD1") }

def hotelC1 : HotelOption := { name := lit "Hotel Zzz", price_per_night := 80 }

def textC1 : Str := lit "Trip.\nTotal cost: SGD 2500\nSnack: SGD 100\n"

/-- C1 witness: the bounds hold at a concrete request whose generated text
even names an over-budget explicit total. -/
theorem claim_C1_witness :
    0 < reqC1.budget ∧
    (0 ≤ (parseItinerary reqC1 textC1 [flightC1] [hotelC1]).total_cost ∧
      (parseItinerary reqC1 textC1 [flightC1] [hotelC1]).total_cost ≤ reqC1.budget) :=
  ⟨by norm_num [reqC1], claim_C1 reqC1 textC1 [flightC1] [hotelC1]
    (by norm_num [reqC1])
    (by intro f hf
        simp only [List.mem_singleton] at hf
        subst hf
        norm_num [flightC1])
    (by intro h hh
        simp only [List.mem_singleton] at hh
        subst hh
        norm_num [hotelC1])⟩

/-! ## Claim C2 — rejected explicit totals and the mention-sum path

The claim says a rejected over-budget extraction makes the reconciler fall
through to the base-cost-plus-mention-sum path, exactly as if no explicit
total had been found.  In the code the rejected value still leaves
`extracted_cost` truthy, so the `if not extracted_cost:` mention step is
skipped and the total stays at the base cost — refuted below; the amended
behaviour (keep base cost, skip mentions, clamp) is proved. -/

/-- The reconciler as claim C2 words it: a rejected (over-budget)
extraction behaves exactly as if no explicit total had been found, i.e.
the base-cost-plus-mention-sum path runs (claim-side definition, for
comparison with `reconcile`). -/
def reconcileClaimed (budget base : ℚ) (text : Str) : ℚ :=
  match tryPatterns text with
  | some v =>
    if v ≤ budget then clampToBudget budget v
    else clampToBudget budget (base + min (mentionSum text) (budget - base))
  | none => clampToBudget budget (base + min (mentionSum text) (budget - base))

def reqC2 : TravelRequest :=
  { origin := lit "SIN", destination := lit "HKG", depart_date := 0
    return_date := 4, duration := 4, budget := 2000, preferences := [], adults := 1 }

def flightC2 : FlightOption :=
  { airline := lit "FlyDodo", price := 500, flight_number := some (lit "FD1") }

def hotelC2 : HotelOption := { name := lit "Hotel Zzz", price_per_night := 80 }

def textC2 : Str := lit "Trip.\nTotal cost: SGD 2500\nSnack: SGD 100\n"

theorem tryPatterns_textC2 : tryPatterns textC2 = some ((2500 : ℕ) : ℚ) := rfl

theorem scanMentions_textC2 :
    scanMentions textC2.length textC2 = [some ((2500 : ℕ) : ℚ), some ((100 : ℕ) : ℚ)] := rfl

theorem mentionSum_textC2 : mentionSum textC2 = 100 := by
  unfold mentionSum
  rw [scanMentions_textC2]
  norm_num

theorem selectFlight_textC2 : selectFlight reqC2.budget [flightC2] textC2 = some flightC2 := by
  decide

theorem selectHotel_textC2 :
    selectHotel reqC2.budget reqC2.duration (some flightC2) [hotelC2] textC2 = some hotelC2 := by
  decide

/-- C2 counterexample: budget 2000, base cost 740 (flight 500 + hotel
80 × 3 nights), text with the rejected explicit total `SGD 2500` and the
small mention `SGD 100`.  The claim predicts 740 + min(100, 1260) = 840;
the code keeps 740 because the mention step is skipped. -/
theorem claim_C2_cex :
    (parseItinerary reqC2 textC2 [flightC2] [hotelC2]).total_cost = 740 ∧
    reconcileClaimed reqC2.budget 740 textC2 = 840 ∧
    (740 : ℚ) ≠ 840 := by
  refine ⟨?_, ?_, by norm_num⟩
  · have htot : (parseItinerary reqC2 textC2 [flightC2] [hotelC2]).total_cost =
        reconcile reqC2.budget
          (baseCost (selectFlight reqC2.budget [flightC2] textC2)
            (selectHotel reqC2.budget reqC2.duration
              (selectFlight reqC2.budget [flightC2] textC2) [hotelC2] textC2)
            reqC2.duration) textC2 := rfl
    rw [htot, selectFlight_textC2, selectHotel_textC2]
    have hbase : baseCost (some flightC2) (some hotelC2) reqC2.duration = 740 := by
      norm_num [baseCost, flightPrice, nightsOf, flightC2, hotelC2, reqC2]
    rw [hbase]
    unfold reconcile
    rw [tryPatterns_textC2]
    have h1 : costAfterExtraction reqC2.budget 740 (some ((2500 : ℕ) : ℚ)) = 740 := by
      simp only [costAfterExtraction]
      rw [if_neg (by norm_num [reqC2])]
    have h2 : costAfterMentions reqC2.budget (some ((2500 : ℕ) : ℚ))
        (mentionSum textC2) 740 = 740 := by
      simp only [costAfterMentions]
      rw [if_neg (by simp)]
    rw [h1, h2]
    unfold clampToBudget
    rw [if_neg (by norm_num [reqC2])]
  · unfold reconcileClaimed
    rw [tryPatterns_textC2, mentionSum_textC2]
    norm_num [clampToBudget, reqC2]

/-- C2 (amended): when the ordered patterns successfully extract an
explicit total whose value exceeds the (non-negative) budget, the
extraction is rejected in the sense that the base cost is kept, and the
mention-sum path is *skipped* (it runs only when no pattern parses or the
parsed value is 0); the final result is the base cost clamped to the
budget. -/
theorem claim_C2 (budget base : ℚ) (text : Str) (v : ℚ) (hb : 0 ≤ budget)
    (hv : tryPatterns text = some v) (hgt : budget < v) :
    reconcile budget base text = clampToBudget budget base := by
  have hv0 : v ≠ 0 := by intro h; subst h; linarith
  unfold reconcile
  rw [hv]
  have h1 : costAfterExtraction budget base (some v) = base := by
    simp only [costAfterExtraction, if_neg (not_le.2 hgt)]
  have h2 : costAfterMentions budget (some v) (mentionSum text) base = base := by
    unfold costAfterMentions
    rw [if_neg (by simp [hv0])]
  rw [h1, h2]

/-- C2 witness: the amended behaviour at the concrete counterexample
input — the result is the clamped base cost 740. -/
theorem claim_C2_witness :
    (0 : ℚ) ≤ reqC2.budget ∧ tryPatterns textC2 = some ((2500 : ℕ) : ℚ) ∧
      reqC2.budget < ((2500 : ℕ) : ℚ) ∧
      reconcile reqC2.budget 740 textC2 = clampToBudget reqC2.budget 740 :=
  ⟨by norm_num [reqC2], tryPatterns_textC2, by norm_num [reqC2],
    claim_C2 reqC2.budget 740 textC2 ((2500 : ℕ) : ℚ) (by norm_num [reqC2])
      tryPatterns_textC2 (by norm_num [reqC2])⟩

/-! ## Claim C8 — summary cascade and (non-)emptiness

The cascade itself holds, but "never empty" does not: for an empty
generated text (reachable — the stripped completion of a whitespace-only
response) every stage produces the empty string. -/

theorem pyStrip_ne_nil {l : Str} (h : l.any (fun c => !pyIsSpace c) = true) :
    pyStrip l ≠ [] := by
  intro hs
  unfold pyStrip at hs
  rw [List.reverse_eq_nil_iff, List.dropWhile_eq_nil_iff] at hs
  have hall : ∀ c ∈ l, pyIsSpace c = true := by
    intro c hc
    rw [← List.takeWhile_append_dropWhile (p := pyIsSpace) (l := l)] at hc
    rcases List.mem_append.1 hc with hc | hc
    · exact List.mem_takeWhile_imp hc
    · exact hs c (List.mem_reverse.2 hc)
  obtain ⟨c, hc, hnc⟩ := List.any_eq_true.1 h
  rw [hall c hc] at hnc
  cases hnc

/-- The claim-side second branch: text up to the first blank line, or `""`
when there is none. -/
def summaryFromTop (text : Str) : Str :=
  if containsStr text (lit "\n\n") then pyStrip (beforeFirst text (lit "\n\n")) else []

def textC8 : Str := lit "\n\nhello"

/-- C8 counterexample: the empty generated text — reachable, since the
generator strips the completion, so a whitespace-only completion becomes
`""` — produces an empty summary, contradicting "never empty".  (A
whitespace-prefixed text also shows the first two stages producing empty
strings.) -/
theorem claim_C8_cex :
    summaryOf [] = [] ∧ generateItineraryText (Except.ok (lit " \n ")) reqC2 = [] ∧
      summaryS1 textC8 = [] ∧ summaryS2 textC8 = [] := by
  refine ⟨by decide, by decide, by decide, by decide⟩

/-- C8 (amended): the summary is the cascade — the stripped text between
the first `"# "` and the following blank line (or end), else the stripped
text up to the first blank line, else the stripped first 200 characters —
and it is non-empty whenever the first 200 characters of the text contain
a non-whitespace character (for whitespace-only texts it can be empty). -/
theorem claim_C8 (text : Str) :
    summaryOf text =
      (if summaryS1 text ≠ [] then summaryS1 text
       else if summaryFromTop text ≠ [] then summaryFromTop text
       else pyStrip (text.take 200)) ∧
    ((text.take 200).any (fun c => !pyIsSpace c) = true → summaryOf text ≠ []) := by
  constructor
  · unfold summaryOf summaryS2 summaryFromTop
    split_ifs <;> simp_all
  · intro h
    unfold summaryOf
    by_cases h2 : summaryS2 text = []
    · rw [if_pos h2]
      exact pyStrip_ne_nil h
    · rw [if_neg h2]
      exact h2

def textC8w : Str := lit "  \nTokyo plan"

/-- C8 witness: a text whose first 200 characters contain a
non-whitespace character has a non-empty summary. -/
theorem claim_C8_witness :
    ((textC8w.take 200).any (fun c => !pyIsSpace c) = true) ∧ summaryOf textC8w ≠ [] :=
  ⟨by decide, (claim_C8 textC8w).2 (by decide)⟩

/-! ## Claim C9 — LLM failure never propagates; deterministic fallback -/

/-- `part` occurs as a contiguous substring of `whole`. -/
def occursIn (part whole : Str) : Prop := ∃ l r, whole = l ++ part ++ r

theorem occursIn_self (p : Str) : occursIn p p := ⟨[], [], by simp⟩

theorem occursIn_prefix2 (p b : Str) : occursIn p (p ++ b) := ⟨[], b, by simp⟩

theorem occursIn_append_left (p a b : Str) (h : occursIn p b) : occursIn p (a ++ b) := by
  obtain ⟨l, r, hw⟩ := h
  exact ⟨a ++ l, r, by rw [hw]; simp [List.append_assoc]⟩

theorem occursIn_trans {p m w : Str} (h1 : occursIn p m) (h2 : occursIn m w) :
    occursIn p w := by
  obtain ⟨l1, r1, hm⟩ := h1
  obtain ⟨l2, r2, hw⟩ := h2
  exact ⟨l2 ++ l1, r1 ++ r2, by rw [hw, hm]; simp [List.append_assoc]⟩

theorem daySection_occursIn {d n : ℕ} (h1 : 1 ≤ d) (h2 : d ≤ n) :
    occursIn (daySection d) (fallbackDays n) := by
  induction n with
  | zero => omega
  | succ k ih =>
    by_cases hd : d = k + 1
    · subst hd
      exact ⟨fallbackDays k, [], by simp [fallbackDays]⟩
    · have hdk : d ≤ k := by omega
      obtain ⟨l, r, hw⟩ := ih hdk
      exact ⟨l, r ++ daySection (k + 1), by simp [fallbackDays, hw, List.append_assoc]⟩

/-- `fallbackText` with the concatenation re-associated to the right, so
that each section heading is the head of its tail. -/
theorem fallbackText_eq (req : TravelRequest) :
    fallbackText req =
      lit "# Trip to " ++ (req.destination ++ (lit "\n\n" ++ (lit "## Overview\n" ++ 
      (lit "A " ++ (natDigits req.duration ++ (lit "-day trip to " ++ (req.destination ++ 
      (lit " from " ++ (req.origin ++ (lit ".\n\n" ++ (lit "## Suggested Flight\n" ++ 
      (lit "Economy class flight from " ++ (req.origin ++ (lit " to " ++ (req.destination ++ 
      (lit ".\n\n" ++ (lit "## Suggested Accommodation\n" ++ (lit "Standard hotel in " ++ 
      (req.destination ++ (lit " city center.\n\n" ++ (lit "## Day-by-Day Itinerary\n" ++ 
      (fallbackDays req.duration ++ (lit "## Estimated Budget\n" ++ 
      (lit "Total estimated cost: SGD " ++ (fmt2 (req.budget * (9/10)) ++ 
      (lit "\n")))))))))))))))))))))))))) := by
  simp [fallbackText, List.append_assoc]

/-- C9: when the completion call fails with any error, the generator
returns the deterministic fallback template — it never propagates the
failure — and that template contains the heading, the overview section,
the flight and hotel blurbs, the fixed `### Day d` sub-section (with its
Morning/Afternoon/Evening bullet lines) for every day `d` of the trip, and
the budget line whose amount is the two-decimal rendering of
0.9 × budget. -/
theorem claim_C9 (req : TravelRequest) (e : Str) (d : ℕ) (h1 : 1 ≤ d)
    (h2 : d ≤ req.duration) :
    generateItineraryText (Except.error e) req = fallbackText req ∧
    occursIn (lit "# Trip to ") (fallbackText req) ∧
    occursIn (lit "## Overview\n") (fallbackText req) ∧
    occursIn (lit "## Suggested Flight\n") (fallbackText req) ∧
    occursIn (lit "## Suggested Accommodation\n") (fallbackText req) ∧
    occursIn (daySection d) (fallbackText req) ∧
    occursIn (lit "## Estimated Budget\n" ++ (lit "Total estimated cost: SGD "
      ++ (fmt2 (req.budget * (9/10)) ++ lit "\n"))) (fallbackText req) := by
  refine ⟨rfl, ?_, ?_, ?_, ?_, ?_, ?_⟩
  · rw [fallbackText_eq]
    exact occursIn_prefix2 _ _
  · rw [fallbackText_eq]
    iterate 3 apply occursIn_append_left
    exact occursIn_prefix2 _ _
  · rw [fallbackText_eq]
    iterate 11 apply occursIn_append_left
    exact occursIn_prefix2 _ _
  · rw [fallbackText_eq]
    iterate 17 apply occursIn_append_left
    exact occursIn_prefix2 _ _
  · refine occursIn_trans (daySection_occursIn h1 h2) ?_
    rw [fallbackText_eq]
    iterate 22 apply occursIn_append_left
    exact occursIn_prefix2 _ _
  · rw [fallbackText_eq]
    iterate 23 apply occursIn_append_left
    exact occursIn_self _

def reqC9 : TravelRequest :=
  { origin := lit "SIN", destination := lit "BALI", depart_date := 0
    return_date := 2, duration := 2, budget := 1000, preferences := [], adults := 1 }

/-- C9 witness: the fallback guarantees at a concrete two-day request and
a concrete completion error. -/
theorem claim_C9_witness :
    (1 ≤ 2 ∧ 2 ≤ reqC9.duration) ∧
    (generateItineraryText (Except.error (lit "rate limited")) reqC9 = fallbackText reqC9 ∧
      occursIn (daySection 2) (fallbackText reqC9)) := by
  refine ⟨⟨by decide, by decide⟩, ?_⟩
  have h := claim_C9 reqC9 (lit "rate limited") 2 (by decide) (by decide)
  exact ⟨h.1, h.2.2.2.2.2.1⟩

end Nomad
